import Mathlib

/-!
Verification development for the shadcn-admin health/metrics/logging core.

Shallow embedding of:
- src/src/shared/logging/index.ts  (structured logger)
- src/unnamed/part_002             (metrics registry)
- src/src/shared/health/index.ts   (health registry)

JavaScript numbers are modelled as rationals, JavaScript Maps and plain
objects as insertion-ordered association lists, and the asynchronous probe
of a health check by its settlement behaviour (the time at which its
promise settles and the value or error it settles with, or never).
Wall-clock timestamps are passed in as explicit parameters.
-/

set_option maxRecDepth 8000

namespace Shadcn

/-- Insertion-ordered association list lookup, modelling Map.get. -/
def mapLookup {α : Type} (m : List (String × α)) (k : String) : Option α :=
  match m with
  | [] => none
  | (k2, v) :: rest => if k2 = k then some v else mapLookup rest k

/-- Map.get with a default, modelling `m.get(k) || d` for a non-falsy default. -/
def mapGetD {α : Type} (m : List (String × α)) (k : String) (d : α) : α :=
  (mapLookup m k).getD d

/-- Modelling Map.set: update the binding in place when the key is present
(insertion order preserved), otherwise append the new binding at the end. -/
def mapSet {α : Type} (m : List (String × α)) (k : String) (v : α) : List (String × α) :=
  if m.any (fun p => p.1 = k) then
    m.map (fun p => if p.1 = k then (p.1, v) else p)
  else
    m ++ [(k, v)]

/-- Modelling Map.has. -/
def mapHas {α : Type} (m : List (String × α)) (k : String) : Bool :=
  m.any (fun p => p.1 = k)

/-- How many bindings of the list carry the key. -/
def countKey {α : Type} (m : List (String × α)) (k : String) : Nat :=
  (m.filter (fun p => p.1 = k)).length

namespace Logging

/-- LogContext from src/src/shared/logging/index.ts. The source type has
unknown-typed values; rational values suffice for every record considered
here, and the logger never inspects a value. -/
abbrev LogContext := List (String × ℚ)

/-- Log levels of LogEntry.level. -/
inductive Level where
  | info
  | error
  | warn
  | debug
deriving DecidableEq, Repr

/-- LogEntry from src/src/shared/logging/index.ts. -/
structure LogEntry where
  timestamp : String
  level : Level
  service : String
  message : String
  context : Option LogContext
  traceId : Option String
deriving DecidableEq, Repr

/-- The Logger class state: service, mutable traceId, standing context. -/
structure Logger where
  service : String
  traceId : Option String
  context : Option LogContext
deriving DecidableEq, Repr

/-- JavaScript object spread of one extra binding onto an object:
an existing key is overwritten in place, a new key is appended. -/
def spreadOne (m : LogContext) (kv : String × ℚ) : LogContext :=
  if m.any (fun p => p.1 = kv.1) then
    m.map (fun p => if p.1 = kv.1 then (p.1, kv.2) else p)
  else
    m ++ [kv]

/-- JavaScript object spread: the result of evaluating the object literal
with the bindings of `a` spread first and those of `b` spread after. -/
def spread (a b : LogContext) : LogContext :=
  b.foldl spreadOne a

/-- Logger.formatLog (src/src/shared/logging/index.ts lines 25-34).
Note: the source places the per-call context argument directly in the
record and never reads this.context; the embedding does the same. -/
def Logger.formatLog (l : Logger) (now : String) (level : Level)
    (message : String) (context : Option LogContext) : LogEntry :=
  { timestamp := now
    level := level
    service := l.service
    message := message
    context := context
    traceId := l.traceId }

/-- Logger.info: the record constructed and emitted by an info call. -/
def Logger.info (l : Logger) (now : String) (message : String)
    (context : Option LogContext) : LogEntry :=
  l.formatLog now Level.info message context

/-- Logger.withContext (src/src/shared/logging/index.ts lines 71-76):
a new logger with the same service, the same traceId, and the spread
of the receiver context (treated as the empty object when absent)
with the supplied context. -/
def Logger.withContext (l : Logger) (context : LogContext) : Logger :=
  { service := l.service
    traceId := l.traceId
    context := some (spread (l.context.getD []) context) }

/-- Logger.setTraceId. -/
def Logger.setTraceId (l : Logger) (traceId : String) : Logger :=
  { l with traceId := some traceId }

/-- Logger.getTraceId. -/
def Logger.getTraceId (l : Logger) : Option String :=
  l.traceId

end Logging

/-! ## Metrics registry, from src/unnamed/part_002 -/

/-- MetricLabels: a JavaScript object of string values, as an
insertion-ordered association list. -/
abbrev MetricLabels := List (String × String)

/-- Lexicographic code-point comparison of character lists: the order in
which localeCompare sorts the plain ASCII label keys of this repository. -/
def charListLe : List Char → List Char → Bool
  | [], _ => true
  | _ :: _, [] => false
  | a :: as, b :: bs =>
      if a.toNat < b.toNat then true
      else if b.toNat < a.toNat then false
      else charListLe as bs

/-- Code-point comparison of strings, modelling a.localeCompare(b) <= 0
on the ASCII label keys this repository uses. -/
def strLe (a b : String) : Bool :=
  charListLe a.data b.data

/-- Stable insertion of one labels entry into a key-sorted list. -/
def orderedInsertKey (p : String × String) :
    List (String × String) → List (String × String)
  | [] => [p]
  | q :: rest => if strLe p.1 q.1 then p :: q :: rest else q :: orderedInsertKey p rest

/-- Array.prototype.sort on label entries with comparator
([a],[b]) => a.localeCompare(b): a stable sort by key. -/
def sortByKey : List (String × String) → List (String × String)
  | [] => []
  | p :: rest => orderedInsertKey p (sortByKey rest)

/-- Metrics.getLabelKey (part_002 lines 25-31): the sentinel "default" when
the labels argument is absent, else the entries sorted by key and rendered
as comma-joined key="value" pairs. -/
def getLabelKey (labels : Option MetricLabels) : String :=
  match labels with
  | none => "default"
  | some ls =>
      String.intercalate ","
        ((sortByKey ls).map (fun p => p.1 ++ "=\"" ++ p.2 ++ "\""))

/-- The Metrics class state (part_002 lines 11-23). The private httpMetrics
field is omitted: no operation ever writes or reads it (reset only clears
it), so it carries no observable state. -/
structure Metrics where
  counters : List (String × List (String × ℚ))
  gauges : List (String × List (String × ℚ))
  histograms : List (String × List ℚ)
deriving DecidableEq, Repr

/-- The freshly constructed Metrics instance. -/
def Metrics.empty : Metrics :=
  { counters := [], gauges := [], histograms := [] }

/-- Metrics.counter (part_002 lines 33-43): add value to the current value
of the name and label-set series, creating the series at 0 when absent.
The source reads the current value as m.get(labelKey) || 0, which agrees
with a defaulted lookup on every number except NaN (not representable in ℚ). -/
def Metrics.counter (m : Metrics) (name : String) (value : ℚ)
    (labels : Option MetricLabels) : Metrics :=
  let labelKey := getLabelKey labels
  let counterMap := mapGetD m.counters name []
  let currentValue := mapGetD counterMap labelKey 0
  { m with counters := mapSet m.counters name (mapSet counterMap labelKey (currentValue + value)) }

/-- Metrics.gauge (part_002 lines 45-54): overwrite the current value of the
name and label-set series. -/
def Metrics.gauge (m : Metrics) (name : String) (value : ℚ)
    (labels : Option MetricLabels) : Metrics :=
  let labelKey := getLabelKey labels
  let gaugeMap := mapGetD m.gauges name []
  { m with gauges := mapSet m.gauges name (mapSet gaugeMap labelKey value) }

/-- The combined metric key of Metrics.histogram (part_002 line 58): the
name followed by the braced label key unless the label key is the
sentinel. -/
def histKey (name : String) (labels : Option MetricLabels) : String :=
  name ++ (if getLabelKey labels ≠ "default" then "\x7b" ++ getLabelKey labels ++ "\x7d" else "")

/-- Metrics.histogram (part_002 lines 56-65): append value to the buffer
keyed by the combined metric key. -/
def Metrics.histogram (m : Metrics) (name : String) (value : ℚ)
    (labels : Option MetricLabels) : Metrics :=
  let metricKey := histKey name labels
  let buf := mapGetD m.histograms metricKey []
  { m with histograms := mapSet m.histograms metricKey (buf ++ [value]) }

/-- Metrics.observeHttp (part_002 lines 67-78). -/
def Metrics.observeHttp (m : Metrics) (method path : String) (statusCode : Int)
    (responseTime : ℚ) : Metrics :=
  let m1 := m.counter "http_requests_total" 1
    (some [("method", method), ("path", path), ("status", toString statusCode)])
  let m2 := m1.histogram "http_request_duration_seconds" (responseTime / 1000)
    (some [("method", method), ("path", path)])
  if statusCode ≥ 400 then
    m2.counter "http_errors_total" 1
      (some [("method", method), ("path", path), ("status", toString statusCode)])
  else
    m2

/-- values.sort((a, b) => a - b): ascending numeric sort. -/
def sortAsc (l : List ℚ) : List ℚ :=
  l.insertionSort (fun a b => a ≤ b)

/-- The template-literal rendering of a number. JavaScript uses
Number.prototype.toString; the embedding renders the rational canonically.
Every property proved below depends only on this being a fixed
deterministic function of the value. -/
def numStr (q : ℚ) : String :=
  toString q

/-- One rendered counter or gauge sample line: name, braced label key
unless it is the sentinel, a space, the value. -/
def counterLine (name labelKey : String) (value : ℚ) : String :=
  name ++ (if labelKey ≠ "default" then "\x7b" ++ labelKey ++ "\x7d" else "") ++ " " ++ numStr value

/-- Math.floor(n * p), in exact rational arithmetic. JavaScript evaluates
the product in binary floating point, which can differ from the exact
product by one unit at some lengths; no claim below depends on the index. -/
def pctIndex (n : Nat) (p : ℚ) : Nat :=
  ((n : ℚ) * p).floor.toNat

/-- values.filter(v => v <= le).length. -/
def bucketCount (values : List ℚ) (le : ℚ) : Nat :=
  (values.filter (fun v => decide (v ≤ le))).length

/-- The histogram block of Metrics.getMetrics (part_002 lines 100-120) for
one stored buffer: nothing when the buffer is empty, else sum, count, the
four fixed buckets, the +Inf bucket and the three percentiles. The source
sorts the buffer in place before the bucket filters run, so the bucket
counts are taken over the sorted list (the counts are unaffected). -/
def renderHistogram (name : String) (values : List ℚ) : List String :=
  if values.length > 0 then
    let sum := values.foldl (fun a b => a + b) 0
    let count := values.length
    let sorted := sortAsc values
    let p50 := sorted.getD (pctIndex count (1/2)) 0
    let p95 := sorted.getD (pctIndex count (19/20)) 0
    let p99 := sorted.getD (pctIndex count (99/100)) 0
    [ name ++ "_sum " ++ numStr sum
    , name ++ "_count " ++ toString count
    , name ++ "_bucket\x7ble=\"0.1\"\x7d " ++ toString (bucketCount sorted (1/10))
    , name ++ "_bucket\x7ble=\"0.5\"\x7d " ++ toString (bucketCount sorted (1/2))
    , name ++ "_bucket\x7ble=\"1\"\x7d " ++ toString (bucketCount sorted 1)
    , name ++ "_bucket\x7ble=\"5\"\x7d " ++ toString (bucketCount sorted 5)
    , name ++ "_bucket\x7ble=\"+Inf\"\x7d " ++ toString count
    , name ++ "_p50 " ++ numStr p50
    , name ++ "_p95 " ++ numStr p95
    , name ++ "_p99 " ++ numStr p99 ]
  else
    []

/-- The lines array built by Metrics.getMetrics (part_002 lines 80-125):
the hardcoded header comments, one line per counter label-set, and the
histogram blocks. The gauges map is never visited by the source. -/
def renderLines (m : Metrics) : List String :=
  [ "# HELP http_requests_total Total number of HTTP requests"
  , "# TYPE http_requests_total counter" ]
  ++ m.counters.flatMap (fun nm => nm.2.map (fun kv => counterLine nm.1 kv.1 kv.2))
  ++ [ ""
     , "# HELP http_request_duration_seconds HTTP request duration in seconds"
     , "# TYPE http_request_duration_seconds histogram" ]
  ++ m.histograms.flatMap (fun nv => renderHistogram nv.1 nv.2)
  ++ [ ""
     , "# HELP http_errors_total Total number of HTTP errors"
     , "# TYPE http_errors_total counter" ]

/-- Metrics.getMetrics (part_002 lines 80-127). Returns the rendered text
together with the registry state after the call: rendering a histogram
with at least one observation sorts its stored buffer in place, so the
post-call state carries the sorted buffers. -/
def Metrics.getMetrics (m : Metrics) : String × Metrics :=
  (String.intercalate "\n" (renderLines m),
   { m with
     histograms :=
       m.histograms.map (fun nv => (nv.1, if nv.2.length > 0 then sortAsc nv.2 else nv.2)) })

/-- Metrics.reset (part_002 lines 129-136): every map cleared. -/
def Metrics.reset (_m : Metrics) : Metrics :=
  Metrics.empty

/-! ## Health registry, from src/src/shared/health/index.ts

An asynchronous probe is modelled by its settlement behaviour: the
number of milliseconds after its start at which its promise settles,
together with the boolean it resolves with or the message of the error
it rejects with; none models a probe whose promise never settles.
Rejections with non-Error values (whose message the source replaces by
"Unknown error") do not arise from the probes this repository registers
and are not modelled. -/

/-- How a probe promise settles. -/
inductive ProbeResult where
  | ok (b : Bool)
  | err (msg : String)
deriving DecidableEq, Repr

/-- Settlement behaviour of a probe: settle time in milliseconds and
result, or never. -/
abbrev ProbeBehavior := Option (ℚ × ProbeResult)

/-- The HealthCheck record (health/index.ts lines 3-7). The timeout field
is optional in the source interface; both register methods always store a
number. -/
structure HealthCheck where
  name : String
  check : ProbeBehavior
  timeout : Option ℚ
deriving DecidableEq, Repr

/-- A check status. -/
inductive Status where
  | healthy
  | unhealthy
deriving DecidableEq, Repr

/-- One entry of HealthStatus.checks. -/
structure CheckEntry where
  status : Status
  message : Option String
  duration : ℚ
deriving DecidableEq, Repr

/-- HealthStatus (health/index.ts lines 9-19). -/
structure HealthStatus where
  status : Status
  timestamp : String
  checks : List (String × CheckEntry)
deriving DecidableEq, Repr

/-- healthCheck.timeout || 5000 (health/index.ts line 44): an absent or
zero (falsy) stored timeout falls back to 5000. -/
def effectiveTimeout (t : Option ℚ) : ℚ :=
  match t with
  | none => 5000
  | some x => if x = 0 then 5000 else x

/-- The settlement of Promise.race([checkPromise, timeoutPromise])
(health/index.ts line 48): whichever settles first, carrying its
settlement time. When the probe never settles the timer wins. At an
exact tie the winner depends on host scheduling; the embedding lets the
timer win, and no property proved below depends on the tie. -/
inductive RaceOutcome where
  | probe (r : ProbeResult) (t : ℚ)
  | timerFired (t : ℚ)
deriving DecidableEq, Repr

/-- Race a probe behaviour against the timeout timer. -/
def race (behavior : ProbeBehavior) (timeoutAt : ℚ) : RaceOutcome :=
  match behavior with
  | none => RaceOutcome.timerFired timeoutAt
  | some (tp, r) => if tp < timeoutAt then RaceOutcome.probe r tp else RaceOutcome.timerFired timeoutAt

/-- The body of the per-check task in Health.runChecks (health/index.ts
lines 39-82): await the race; on a resolution record healthy or unhealthy
per the boolean with the elapsed duration; on a rejection (a probe error,
or the Error("Check timeout") the timer rejects with) record unhealthy
with the message of the error and the elapsed duration. The elapsed
duration is Date.now() - startTime at the settlement of the race, i.e.
the settlement time of the winner. -/
def runCheck (hc : HealthCheck) : CheckEntry :=
  match race hc.check (effectiveTimeout hc.timeout) with
  | RaceOutcome.probe (ProbeResult.ok b) t =>
      { status := if b then Status.healthy else Status.unhealthy
        message := none
        duration := t }
  | RaceOutcome.probe (ProbeResult.err msg) t =>
      { status := Status.unhealthy, message := some msg, duration := t }
  | RaceOutcome.timerFired t =>
      { status := Status.unhealthy, message := some "Check timeout", duration := t }

/-- The overallStatus accumulation of Health.runChecks: it starts healthy
and is set to unhealthy whenever a task records an unhealthy entry. -/
def overallStatus (results : List (String × CheckEntry)) : Status :=
  results.foldl (fun acc p => if p.2.status = Status.unhealthy then Status.unhealthy else acc)
    Status.healthy

/-- Health.runChecks (health/index.ts lines 35-91): run every registered
check, collect one entry per check under its name, aggregate, and stamp
the timestamp captured when the aggregation completes. -/
def runChecks (checks : List (String × HealthCheck)) (now : String) : HealthStatus :=
  let results := checks.map (fun p => (p.1, runCheck p.2))
  { status := overallStatus results
    timestamp := now
    checks := results }

/-- The Health class state: the two category maps. -/
structure Health where
  livenessChecks : List (String × HealthCheck)
  readinessChecks : List (String × HealthCheck)
deriving DecidableEq, Repr

/-- The freshly constructed Health instance. -/
def Health.empty : Health :=
  { livenessChecks := [], readinessChecks := [] }

/-- Health.registerLiveness (health/index.ts lines 25-28). The source
declares the timeout parameter with default 5000; a call relying on the
default passes 5000 here. -/
def Health.registerLiveness (h : Health) (name : String) (check : ProbeBehavior)
    (timeout : ℚ) : Health :=
  { h with livenessChecks :=
      mapSet h.livenessChecks name { name := name, check := check, timeout := some timeout } }

/-- Health.registerReadiness (health/index.ts lines 30-33). -/
def Health.registerReadiness (h : Health) (name : String) (check : ProbeBehavior)
    (timeout : ℚ) : Health :=
  { h with readinessChecks :=
      mapSet h.readinessChecks name { name := name, check := check, timeout := some timeout } }

/-- Health.checkLiveness (health/index.ts lines 93-96). -/
def Health.checkLiveness (h : Health) (now : String) : HealthStatus :=
  runChecks h.livenessChecks now

/-- Health.checkReadiness (health/index.ts lines 98-101). -/
def Health.checkReadiness (h : Health) (now : String) : HealthStatus :=
  runChecks h.readinessChecks now

/-! ## Association list lemmas -/

theorem mapLookup_eq_none_of_not_any {α : Type} (m : List (String × α)) (k : String)
    (h : ¬ (m.any (fun p => p.1 = k) = true)) : mapLookup m k = none := by
  induction m with
  | nil => rfl
  | cons a l ih =>
      simp only [List.any_cons, Bool.or_eq_true, decide_eq_true_eq] at h
      push_neg at h
      have ih2 := ih (by simpa using h.2)
      simp [mapLookup, h.1, ih2]

theorem mapLookup_isSome_of_any {α : Type} (m : List (String × α)) (k : String)
    (h : m.any (fun p => p.1 = k) = true) : ∃ w, mapLookup m k = some w := by
  induction m with
  | nil => simp at h
  | cons a l ih =>
      by_cases hak : a.1 = k
      · exact ⟨a.2, by simp [mapLookup, hak]⟩
      · simp only [List.any_cons, Bool.or_eq_true, decide_eq_true_eq, hak, false_or] at h
        obtain ⟨w, hw⟩ := ih h
        exact ⟨w, by simp [mapLookup, hak, hw]⟩

theorem mapLookup_append {α : Type} (m1 m2 : List (String × α)) (k : String) :
    mapLookup (m1 ++ m2) k =
      match mapLookup m1 k with
      | some v => some v
      | none => mapLookup m2 k := by
  induction m1 with
  | nil => simp [mapLookup]
  | cons a l ih =>
      by_cases hak : a.1 = k
      · simp [mapLookup, hak]
      · simp [mapLookup, hak, ih]

theorem mapLookup_map_replace_self {α : Type} (m : List (String × α)) (k : String) (v : α) :
    mapLookup (m.map (fun p => if p.1 = k then (p.1, v) else p)) k =
      (mapLookup m k).map (fun _ => v) := by
  induction m with
  | nil => rfl
  | cons a l ih =>
      simp only [List.map_cons]
      by_cases hak : a.1 = k
      · rw [if_pos hak]
        simp [mapLookup, hak]
      · rw [if_neg hak]
        simp [mapLookup, hak, ih]

theorem mapLookup_map_replace_other {α : Type} (m : List (String × α)) (k k2 : String) (v : α)
    (h : k2 ≠ k) :
    mapLookup (m.map (fun p => if p.1 = k then (p.1, v) else p)) k2 = mapLookup m k2 := by
  induction m with
  | nil => rfl
  | cons a l ih =>
      simp only [List.map_cons]
      by_cases hak : a.1 = k
      · have hk2 : ¬ (a.1 = k2) := by rw [hak]; exact Ne.symm h
        rw [if_pos hak]
        simp [mapLookup, hk2, ih]
      · rw [if_neg hak]
        by_cases hk2 : a.1 = k2
        · simp [mapLookup, hk2]
        · simp [mapLookup, hk2, ih]

theorem mapLookup_mapSet_self {α : Type} (m : List (String × α)) (k : String) (v : α) :
    mapLookup (mapSet m k v) k = some v := by
  unfold mapSet
  by_cases hany : m.any (fun p => p.1 = k)
  · obtain ⟨w, hw⟩ := mapLookup_isSome_of_any m k hany
    simp [hany, mapLookup_map_replace_self, hw]
  · have hnone := mapLookup_eq_none_of_not_any m k hany
    simp [hany, mapLookup_append, hnone, mapLookup]

theorem mapLookup_mapSet_other {α : Type} (m : List (String × α)) (k k2 : String) (v : α)
    (h : k2 ≠ k) : mapLookup (mapSet m k v) k2 = mapLookup m k2 := by
  unfold mapSet
  by_cases hany : m.any (fun p => p.1 = k)
  · simp [hany, mapLookup_map_replace_other m k k2 v h]
  · simp only [hany, if_neg, Bool.false_eq_true, not_false_eq_true, mapLookup_append]
    cases hm : mapLookup m k2 with
    | some w => simp
    | none => simp [mapLookup, (Ne.symm h : k ≠ k2)]

theorem map_replace_of_not_any {α : Type} (m : List (String × α)) (k : String) (v : α)
    (h : ¬ (m.any (fun p => p.1 = k) = true)) :
    m.map (fun p => if p.1 = k then (p.1, v) else p) = m := by
  induction m with
  | nil => rfl
  | cons a l ih =>
      simp only [List.any_cons, Bool.or_eq_true, decide_eq_true_eq] at h
      push_neg at h
      simp only [List.map_cons, if_neg h.1, ih (by simpa using h.2)]

theorem any_key_map_replace {α : Type} (m : List (String × α)) (k k2 : String) (v : α) :
    (m.map (fun p => if p.1 = k then (p.1, v) else p)).any (fun p => p.1 = k2)
      = m.any (fun p => p.1 = k2) := by
  induction m with
  | nil => rfl
  | cons a l ih =>
      simp only [List.map_cons, List.any_cons, ih]
      by_cases hak : a.1 = k
      · rw [if_pos hak]
      · rw [if_neg hak]

theorem mapSet_of_any {α : Type} (m : List (String × α)) (k : String) (v : α)
    (h : m.any (fun p => p.1 = k) = true) :
    mapSet m k v = m.map (fun p => if p.1 = k then (p.1, v) else p) := by
  unfold mapSet
  rw [if_pos h]

theorem mapSet_of_not_any {α : Type} (m : List (String × α)) (k : String) (v : α)
    (h : ¬ (m.any (fun p => p.1 = k) = true)) :
    mapSet m k v = m ++ [(k, v)] := by
  unfold mapSet
  rw [if_neg h]

theorem mapSet_mapSet_same {α : Type} (m : List (String × α)) (k : String) (v1 v2 : α) :
    mapSet (mapSet m k v1) k v2 = mapSet m k v2 := by
  by_cases hany : m.any (fun p => p.1 = k)
  · have h1 := mapSet_of_any m k v1 hany
    have h2 : (mapSet m k v1).any (fun p => p.1 = k) = true := by
      rw [h1, any_key_map_replace]; exact hany
    rw [mapSet_of_any _ k v2 h2, h1, List.map_map]
    have hfun : ((fun p : String × α => if p.1 = k then (p.1, v2) else p) ∘
        (fun p : String × α => if p.1 = k then (p.1, v1) else p))
        = (fun p : String × α => if p.1 = k then (p.1, v2) else p) := by
      funext p
      by_cases hp : p.1 = k
      · simp [hp]
      · simp [hp]
    rw [hfun, mapSet_of_any m k v2 hany]
  · have h1 := mapSet_of_not_any m k v1 hany
    have h2 : (mapSet m k v1).any (fun p => p.1 = k) = true := by
      rw [h1]; simp
    rw [mapSet_of_any _ k v2 h2, h1, List.map_append, map_replace_of_not_any m k v2 hany,
      mapSet_of_not_any m k v2 hany]
    simp

theorem countKey_append {α : Type} (m1 m2 : List (String × α)) (k : String) :
    countKey (m1 ++ m2) k = countKey m1 k + countKey m2 k := by
  simp [countKey, List.filter_append]

theorem countKey_eq_zero_of_not_any {α : Type} (m : List (String × α)) (k : String)
    (h : ¬ (m.any (fun p => p.1 = k) = true)) : countKey m k = 0 := by
  simp only [countKey, List.length_eq_zero]
  apply List.filter_eq_nil_iff.mpr
  intro p hp
  intro hpk
  exact h (List.any_eq_true.mpr ⟨p, hp, hpk⟩)

theorem countKey_map_replace {α : Type} (m : List (String × α)) (k k2 : String) (v : α) :
    countKey (m.map (fun p => if p.1 = k then (p.1, v) else p)) k2 = countKey m k2 := by
  induction m with
  | nil => rfl
  | cons a l ih =>
      simp only [List.map_cons]
      by_cases hak : a.1 = k
      · rw [if_pos hak]
        by_cases hk2 : a.1 = k2
        · simp [countKey, List.filter_cons, hk2] at ih ⊢
          omega
        · simp [countKey, List.filter_cons, hk2] at ih ⊢
          exact ih
      · rw [if_neg hak]
        by_cases hk2 : a.1 = k2
        · simp [countKey, List.filter_cons, hk2] at ih ⊢
          omega
        · simp [countKey, List.filter_cons, hk2] at ih ⊢
          exact ih

theorem countKey_le_one_of_nodup {α : Type} (m : List (String × α)) (k : String)
    (h : (m.map Prod.fst).Nodup) : countKey m k ≤ 1 := by
  induction m with
  | nil => simp [countKey]
  | cons a l ih =>
      simp only [List.map_cons, List.nodup_cons] at h
      by_cases hak : a.1 = k
      · have hz : countKey l k = 0 := by
          apply countKey_eq_zero_of_not_any
          intro hcontra
          obtain ⟨p, hp, hpk⟩ := List.any_eq_true.mp hcontra
          simp only [decide_eq_true_eq] at hpk
          exact h.1 (by rw [hak, ← hpk]; exact List.mem_map_of_mem Prod.fst hp)
        simp only [countKey] at hz
        simp [countKey, List.filter_cons, hak, hz]
      · simp [countKey, List.filter_cons, hak]
        simpa [countKey] using ih h.2

theorem one_le_countKey_of_any {α : Type} (m : List (String × α)) (k : String)
    (h : m.any (fun p => p.1 = k) = true) : 1 ≤ countKey m k := by
  simp only [List.any_eq_true, decide_eq_true_eq] at h
  obtain ⟨p, hp, hpk⟩ := h
  have : p ∈ m.filter (fun p => p.1 = k) := List.mem_filter.mpr ⟨hp, by simpa using hpk⟩
  have := List.length_pos.mpr (List.ne_nil_of_mem this)
  simpa [countKey] using this

theorem countKey_mapSet_self_of_nodup {α : Type} (m : List (String × α)) (k : String) (v : α)
    (hnd : (m.map Prod.fst).Nodup) : countKey (mapSet m k v) k = 1 := by
  by_cases hany : m.any (fun p => p.1 = k)
  · have h1 : mapSet m k v = m.map (fun p => if p.1 = k then (p.1, v) else p) := by
      simp [mapSet, hany]
    rw [h1, countKey_map_replace]
    exact le_antisymm (countKey_le_one_of_nodup m k hnd) (one_le_countKey_of_any m k hany)
  · have h1 : mapSet m k v = m ++ [(k, v)] := by simp [mapSet, hany]
    rw [h1, countKey_append, countKey_eq_zero_of_not_any m k hany]
    simp [countKey]

theorem mapGetD_mapSet_self {α : Type} (m : List (String × α)) (k : String) (v d : α) :
    mapGetD (mapSet m k v) k d = v := by
  simp [mapGetD, mapLookup_mapSet_self]

theorem mapGetD_mapSet_other {α : Type} (m : List (String × α)) (k k2 : String) (v d : α)
    (h : k2 ≠ k) : mapGetD (mapSet m k v) k2 d = mapGetD m k2 d := by
  simp [mapGetD, mapLookup_mapSet_other m k k2 v h]

/-! ## Metrics operation lemmas -/

theorem counter_histograms_eq (m : Metrics) (n : String) (v : ℚ) (l : Option MetricLabels) :
    (m.counter n v l).histograms = m.histograms := rfl

theorem counter_gauges_eq (m : Metrics) (n : String) (v : ℚ) (l : Option MetricLabels) :
    (m.counter n v l).gauges = m.gauges := rfl

theorem histogram_counters_eq (m : Metrics) (n : String) (v : ℚ) (l : Option MetricLabels) :
    (m.histogram n v l).counters = m.counters := rfl

theorem counter_read_self (m : Metrics) (n : String) (v : ℚ) (l : Option MetricLabels) :
    mapGetD (mapGetD (m.counter n v l).counters n []) (getLabelKey l) 0
      = mapGetD (mapGetD m.counters n []) (getLabelKey l) 0 + v := by
  simp [Metrics.counter, mapGetD_mapSet_self]

theorem counter_read_other_name (m : Metrics) (n : String) (v : ℚ) (l : Option MetricLabels)
    (n2 : String) (h : n2 ≠ n) :
    mapLookup (m.counter n v l).counters n2 = mapLookup m.counters n2 := by
  simp [Metrics.counter, mapLookup_mapSet_other _ _ _ _ h]

theorem histogram_read_self (m : Metrics) (n : String) (v : ℚ) (l : Option MetricLabels) :
    mapGetD (m.histogram n v l).histograms (histKey n l) []
      = mapGetD m.histograms (histKey n l) [] ++ [v] := by
  simp [Metrics.histogram, mapGetD_mapSet_self]

/-! ## Sorting lemmas -/

theorem sortAsc_perm (l : List ℚ) : (sortAsc l).Perm l :=
  List.perm_insertionSort _ l

theorem sortAsc_sorted (l : List ℚ) : List.Sorted (fun a b : ℚ => a ≤ b) (sortAsc l) :=
  List.sorted_insertionSort _ l

theorem sortAsc_idem (l : List ℚ) : sortAsc (sortAsc l) = sortAsc l :=
  (sortAsc_sorted l).insertionSort_eq

theorem foldl_add (l : List ℚ) (a : ℚ) : l.foldl (fun x y => x + y) a = a + l.sum := by
  induction l generalizing a with
  | nil => simp
  | cons b t ih => simp [List.foldl_cons, ih, add_assoc]

theorem bucketCount_sortAsc (l : List ℚ) (t : ℚ) :
    bucketCount (sortAsc l) t = bucketCount l t := by
  unfold bucketCount
  exact ((sortAsc_perm l).filter _).length_eq

/-! ## Aggregation lemmas -/

theorem overallStatus_aux (results : List (String × CheckEntry)) :
    ∀ init : Status,
      results.foldl
        (fun acc p => if p.2.status = Status.unhealthy then Status.unhealthy else acc) init
        = Status.unhealthy ↔
      (init = Status.unhealthy ∨ ∃ p ∈ results, p.2.status = Status.unhealthy) := by
  induction results with
  | nil => intro init; simp
  | cons a l ih =>
      intro init
      rw [List.foldl_cons, ih]
      by_cases h : a.2.status = Status.unhealthy
      · simp [h]
      · simp [h, or_assoc]

theorem Status.eq_healthy_of_ne (s : Status) (h : s ≠ Status.unhealthy) :
    s = Status.healthy := by
  cases s
  · rfl
  · exact absurd rfl h

/-! ## Claims -/

/-- C3: per-probe semantics of a checkLiveness or checkReadiness run. If
the timer of the check timeout fires before the probe settles (in
particular when the probe never settles), the check records unhealthy with
message "Check timeout" and the elapsed duration; if the probe rejects
first, it records unhealthy with the message of the failure and the
elapsed duration; if the probe resolves first, it records healthy or
unhealthy per its boolean with the elapsed duration. A probe that settles
only at or after the timeout yields exactly the record of a probe that
never settles: its late settlement cannot change the recorded outcome. -/
theorem C3_runCheck_race_semantics (n : String) (timeout : Option ℚ) (tp : ℚ)
    (r : ProbeResult) (msg : String) (b : Bool) :
    runCheck { name := n, check := none, timeout := timeout } =
      { status := Status.unhealthy, message := some "Check timeout",
        duration := effectiveTimeout timeout } ∧
    (effectiveTimeout timeout ≤ tp →
      runCheck { name := n, check := some (tp, r), timeout := timeout } =
        runCheck { name := n, check := none, timeout := timeout }) ∧
    (tp < effectiveTimeout timeout →
      runCheck { name := n, check := some (tp, ProbeResult.err msg), timeout := timeout } =
        { status := Status.unhealthy, message := some msg, duration := tp }) ∧
    (tp < effectiveTimeout timeout →
      runCheck { name := n, check := some (tp, ProbeResult.ok b), timeout := timeout } =
        { status := if b then Status.healthy else Status.unhealthy, message := none,
          duration := tp }) := by
  refine ⟨rfl, ?_, ?_, ?_⟩
  · intro h
    simp [runCheck, race, not_lt.mpr h]
  · intro h
    simp [runCheck, race, h]
  · intro h
    simp [runCheck, race, h]

/-- Witness for C3: a probe rejecting at 10 ms with timeout 100 ms records
unhealthy with its message and duration 10; a probe resolving only at
200 ms records the timeout outcome. -/
theorem C3_runCheck_race_semantics_witness :
    runCheck { name := "db", check := some (10, ProbeResult.err "boom"), timeout := some 100 } =
      { status := Status.unhealthy, message := some "boom", duration := 10 } ∧
    runCheck { name := "db", check := some (200, ProbeResult.ok true), timeout := some 100 } =
      runCheck { name := "db", check := none, timeout := some 100 } := by
  constructor
  · exact (C3_runCheck_race_semantics "db" (some 100) 10 (ProbeResult.ok true) "boom" true).2.2.1
      (by decide)
  · exact (C3_runCheck_race_semantics "db" (some 100) 200 (ProbeResult.ok true) "boom" true).2.1
      (by decide)

/-- C4: the aggregate status of a run is unhealthy exactly when at least
one recorded check entry is unhealthy; a status that is not unhealthy is
healthy (the type has no third value), and a run over an empty category
map is healthy. Freshness is inherent to the embedding: runChecks is a
function of the current category map alone, with no cached state. -/
theorem C4_aggregate_unhealthy_iff (checks : List (String × HealthCheck)) (now : String) :
    ((runChecks checks now).status = Status.unhealthy ↔
      ∃ p ∈ (runChecks checks now).checks, p.2.status = Status.unhealthy) ∧
    ((runChecks checks now).status ≠ Status.unhealthy →
      (runChecks checks now).status = Status.healthy) ∧
    (runChecks ([] : List (String × HealthCheck)) now).status = Status.healthy := by
  refine ⟨?_, ?_, rfl⟩
  · have h := overallStatus_aux (checks.map fun p => (p.1, runCheck p.2)) Status.healthy
    simpa [runChecks, overallStatus] using h
  · intro h
    exact Status.eq_healthy_of_ne _ h

/-- Witness for C4: with probes app (resolves true) and flaky (resolves
false) the aggregate is unhealthy, by the iff applied at the unhealthy
flaky entry. -/
theorem C4_aggregate_unhealthy_iff_witness :
    (runChecks
      [("app", { name := "app", check := some (1, ProbeResult.ok true), timeout := some 5000 }),
       ("flaky", { name := "flaky", check := some (1, ProbeResult.ok false), timeout := some 5000 })]
      "ts").status = Status.unhealthy := by
  apply (C4_aggregate_unhealthy_iff _ "ts").1.mpr
  exact ⟨("flaky", { status := Status.unhealthy, message := none, duration := 1 }),
    by decide, rfl⟩

/-- C5: a run never loses a probe and never propagates a probe failure:
the returned checks list carries exactly the registered names in order,
every registered check contributes its entry, and a probe that rejects
before the timeout surfaces as an unhealthy entry with its message rather
than aborting the batch. Totality of runChecks (it returns a HealthStatus
for every input rather than raising) is the never-propagates guarantee. -/
theorem C5_probe_isolation (checks : List (String × HealthCheck)) (now : String) :
    ((runChecks checks now).checks.map Prod.fst = checks.map Prod.fst) ∧
    (∀ n hc, (n, hc) ∈ checks → (n, runCheck hc) ∈ (runChecks checks now).checks) ∧
    (∀ n hc tp msg, (n, hc) ∈ checks →
      hc.check = some (tp, ProbeResult.err msg) → tp < effectiveTimeout hc.timeout →
      (n, { status := Status.unhealthy, message := some msg, duration := tp })
        ∈ (runChecks checks now).checks) := by
  refine ⟨?_, ?_, ?_⟩
  · simp [runChecks, List.map_map, Function.comp]
  · intro n hc h
    simp only [runChecks]
    exact List.mem_map.mpr ⟨(n, hc), h, rfl⟩
  · intro n hc tp msg hmem hcheck hlt
    have hrun : runCheck hc = { status := Status.unhealthy, message := some msg, duration := tp } := by
      simp [runCheck, race, hcheck, hlt]
    rw [← hrun]
    simp only [runChecks]
    exact List.mem_map.mpr ⟨(n, hc), hmem, rfl⟩

/-- Witness for C5: a single probe rejecting at 10 ms with timeout 100 ms
appears in the returned checks as an unhealthy entry with its message. -/
theorem C5_probe_isolation_witness :
    ("db", { status := Status.unhealthy, message := some "down", duration := (10 : ℚ) })
      ∈ (runChecks
          [("db", { name := "db", check := some (10, ProbeResult.err "down"), timeout := some 100 })]
          "t").checks :=
  (C5_probe_isolation _ "t").2.2 "db"
    { name := "db", check := some (10, ProbeResult.err "down"), timeout := some 100 }
    10 "down" (by decide) rfl (by decide)

/-- C6: registering a second probe under a name already present in the
same category replaces the first entirely: the registry state equals the
state reached by registering only the second probe (so the first probe can
never be invoked again), the category map holds exactly one entry for the
name (given the Map invariant of duplicate-free keys), that entry is the
second registration, and a subsequent check run is identical to a run
that had only ever seen the second probe. Stated for both categories. -/
theorem C6_reregister_replaces (h : Health) (n : String) (p1 p2 : ProbeBehavior)
    (t1 t2 : ℚ) (now : String)
    (hndl : (h.livenessChecks.map Prod.fst).Nodup)
    (hndr : (h.readinessChecks.map Prod.fst).Nodup) :
    ((h.registerLiveness n p1 t1).registerLiveness n p2 t2 = h.registerLiveness n p2 t2) ∧
    countKey ((h.registerLiveness n p1 t1).registerLiveness n p2 t2).livenessChecks n = 1 ∧
    mapLookup ((h.registerLiveness n p1 t1).registerLiveness n p2 t2).livenessChecks n
      = some { name := n, check := p2, timeout := some t2 } ∧
    (((h.registerLiveness n p1 t1).registerLiveness n p2 t2).checkLiveness now
      = (h.registerLiveness n p2 t2).checkLiveness now) ∧
    ((h.registerReadiness n p1 t1).registerReadiness n p2 t2 = h.registerReadiness n p2 t2) ∧
    countKey ((h.registerReadiness n p1 t1).registerReadiness n p2 t2).readinessChecks n = 1 ∧
    mapLookup ((h.registerReadiness n p1 t1).registerReadiness n p2 t2).readinessChecks n
      = some { name := n, check := p2, timeout := some t2 } ∧
    (((h.registerReadiness n p1 t1).registerReadiness n p2 t2).checkReadiness now
      = (h.registerReadiness n p2 t2).checkReadiness now) := by
  have hcl : (h.registerLiveness n p1 t1).registerLiveness n p2 t2
      = h.registerLiveness n p2 t2 := by
    simp [Health.registerLiveness, mapSet_mapSet_same]
  have hcr : (h.registerReadiness n p1 t1).registerReadiness n p2 t2
      = h.registerReadiness n p2 t2 := by
    simp [Health.registerReadiness, mapSet_mapSet_same]
  refine ⟨hcl, ?_, ?_, by rw [hcl], hcr, ?_, ?_, by rw [hcr]⟩
  · rw [hcl]
    simp only [Health.registerLiveness]
    exact countKey_mapSet_self_of_nodup _ n _ hndl
  · rw [hcl]
    simp only [Health.registerLiveness]
    exact mapLookup_mapSet_self _ n _
  · rw [hcr]
    simp only [Health.registerReadiness]
    exact countKey_mapSet_self_of_nodup _ n _ hndr
  · rw [hcr]
    simp only [Health.registerReadiness]
    exact mapLookup_mapSet_self _ n _

/-- Witness for C6: on the fresh registry, registering db twice in the
liveness category leaves exactly one entry, holding the second probe. -/
theorem C6_reregister_replaces_witness :
    countKey ((Health.empty.registerLiveness "db" none 1).registerLiveness "db"
      (some (1, ProbeResult.ok true)) 2).livenessChecks "db" = 1 ∧
    mapLookup ((Health.empty.registerLiveness "db" none 1).registerLiveness "db"
      (some (1, ProbeResult.ok true)) 2).livenessChecks "db"
      = some { name := "db", check := some (1, ProbeResult.ok true), timeout := some 2 } := by
  have h := C6_reregister_replaces Health.empty "db" none (some (1, ProbeResult.ok true))
    1 2 "t" (by simp [Health.empty]) (by simp [Health.empty])
  exact ⟨h.2.1, h.2.2.1⟩

/-- C10: a probe registered with an explicit timeout of 0 stores timeout 0,
yet its check run races against the default 5000 ms, because the stored 0
is falsy in the timer expression. Hence a probe settling before 5000 ms is
not immediately timed out: its run equals the run under an explicit 5000,
and a probe resolving at tp less than 5000 records its boolean outcome. -/
theorem C10_zero_timeout_falls_back (h : Health) (n : String) (p : ProbeBehavior) :
    mapLookup (h.registerLiveness n p 0).livenessChecks n
      = some { name := n, check := p, timeout := some 0 } ∧
    mapLookup (h.registerReadiness n p 0).readinessChecks n
      = some { name := n, check := p, timeout := some 0 } ∧
    effectiveTimeout (some 0) = 5000 ∧
    (∀ tp r, runCheck { name := n, check := some (tp, r), timeout := some 0 }
      = runCheck { name := n, check := some (tp, r), timeout := some 5000 }) ∧
    (∀ tp b, tp < 5000 →
      runCheck { name := n, check := some (tp, ProbeResult.ok b), timeout := some 0 }
        = { status := if b then Status.healthy else Status.unhealthy, message := none,
            duration := tp }) := by
  refine ⟨?_, ?_, by simp [effectiveTimeout], ?_, ?_⟩
  · simp only [Health.registerLiveness]
    exact mapLookup_mapSet_self _ n _
  · simp only [Health.registerReadiness]
    exact mapLookup_mapSet_self _ n _
  · intro tp r
    simp [runCheck, race, effectiveTimeout]
  · intro tp b hlt
    have he : effectiveTimeout (some 0) = 5000 := by simp [effectiveTimeout]
    simp [runCheck, race, he, hlt]

/-- Witness for C10: registering db with timeout 0 stores 0, and a probe
resolving true at 10 ms records healthy with duration 10 rather than an
immediate timeout. -/
theorem C10_zero_timeout_falls_back_witness :
    mapLookup (Health.empty.registerLiveness "db" (some (10, ProbeResult.ok true)) 0).livenessChecks
      "db" = some { name := "db", check := some (10, ProbeResult.ok true), timeout := some 0 } ∧
    runCheck { name := "db", check := some (10, ProbeResult.ok true), timeout := some 0 }
      = { status := Status.healthy, message := none, duration := 10 } := by
  have h := C10_zero_timeout_falls_back Health.empty "db" (some (10, ProbeResult.ok true))
  refine ⟨h.1, ?_⟩
  have h2 := h.2.2.2.2 10 true (by decide)
  simpa using h2

theorem counter_read_other_name_getD (m : Metrics) (n : String) (v : ℚ)
    (l : Option MetricLabels) (n2 : String) (d : List (String × ℚ)) (h : n2 ≠ n) :
    mapGetD (m.counter n v l).counters n2 d = mapGetD m.counters n2 d := by
  simp [mapGetD, counter_read_other_name m n v l n2 h]

theorem getLabelKey_GET_x_404 :
    getLabelKey (some [("method", "GET"), ("path", "/x"), ("status", "404")])
      = "method=\"GET\",path=\"/x\",status=\"404\"" := by
  decide

theorem histKey_duration_GET_x :
    histKey "http_request_duration_seconds" (some [("method", "GET"), ("path", "/x")])
      = "http_request_duration_seconds\x7bmethod=\"GET\",path=\"/x\"\x7d" := by
  decide

theorem toString_404 : toString (404 : Int) = "404" := by
  decide

/-- C7: observeHttp("GET", "/x", 404, 120) adds 1 to the
http_requests_total series with labels method=GET, path=/x, status=404,
appends 0.12 (the response time divided by 1000) to the
http_request_duration_seconds histogram keyed by method=GET, path=/x,
and, the status being at least 400, adds 1 to http_errors_total with the
same labels; for every status code below 400 the error counter map is
left untouched. -/
theorem C7_observeHttp_effects (m : Metrics) :
    (mapGetD (mapGetD (m.observeHttp "GET" "/x" 404 120).counters "http_requests_total" [])
        "method=\"GET\",path=\"/x\",status=\"404\"" 0
      = mapGetD (mapGetD m.counters "http_requests_total" [])
          "method=\"GET\",path=\"/x\",status=\"404\"" 0 + 1) ∧
    (mapGetD (m.observeHttp "GET" "/x" 404 120).histograms
        "http_request_duration_seconds\x7bmethod=\"GET\",path=\"/x\"\x7d" []
      = mapGetD m.histograms "http_request_duration_seconds\x7bmethod=\"GET\",path=\"/x\"\x7d" []
          ++ [(0.12 : ℚ)]) ∧
    (mapGetD (mapGetD (m.observeHttp "GET" "/x" 404 120).counters "http_errors_total" [])
        "method=\"GET\",path=\"/x\",status=\"404\"" 0
      = mapGetD (mapGetD m.counters "http_errors_total" [])
          "method=\"GET\",path=\"/x\",status=\"404\"" 0 + 1) ∧
    (∀ method path statusCode rt, statusCode < 400 →
      mapLookup (m.observeHttp method path statusCode rt).counters "http_errors_total"
        = mapLookup m.counters "http_errors_total") := by
  have hge : (400 : Int) ≤ 404 := by decide
  have hobs : m.observeHttp "GET" "/x" 404 120
      = ((m.counter "http_requests_total" 1
            (some [("method", "GET"), ("path", "/x"), ("status", "404")])).histogram
          "http_request_duration_seconds" ((120 : ℚ) / 1000)
          (some [("method", "GET"), ("path", "/x")])).counter "http_errors_total" 1
          (some [("method", "GET"), ("path", "/x"), ("status", "404")]) := by
    simp [Metrics.observeHttp, toString_404, ge_iff_le, hge]
  refine ⟨?_, ?_, ?_, ?_⟩
  · rw [hobs, counter_read_other_name_getD _ _ _ _ _ _ (by decide), histogram_counters_eq]
    have h1 := counter_read_self m "http_requests_total" 1
      (some [("method", "GET"), ("path", "/x"), ("status", "404")])
    rw [getLabelKey_GET_x_404] at h1
    exact h1
  · rw [hobs, counter_histograms_eq]
    have h1 := histogram_read_self
      (m.counter "http_requests_total" 1
        (some [("method", "GET"), ("path", "/x"), ("status", "404")]))
      "http_request_duration_seconds" ((120 : ℚ) / 1000)
      (some [("method", "GET"), ("path", "/x")])
    rw [histKey_duration_GET_x, counter_histograms_eq] at h1
    rw [h1]
    norm_num
  · rw [hobs]
    have h1 := counter_read_self
      ((m.counter "http_requests_total" 1
          (some [("method", "GET"), ("path", "/x"), ("status", "404")])).histogram
        "http_request_duration_seconds" ((120 : ℚ) / 1000)
        (some [("method", "GET"), ("path", "/x")]))
      "http_errors_total" 1 (some [("method", "GET"), ("path", "/x"), ("status", "404")])
    rw [getLabelKey_GET_x_404] at h1
    rw [h1, histogram_counters_eq, counter_read_other_name_getD _ _ _ _ _ _ (by decide)]
  · intro method path statusCode rt hlt
    have hnot : ¬ ((400 : Int) ≤ statusCode) := Int.not_le.mpr hlt
    simp only [Metrics.observeHttp, ge_iff_le, hnot, if_false]
    rw [histogram_counters_eq, counter_read_other_name _ _ _ _ _ (by decide)]

/-- Witness for C7: on the empty registry a status 200 observation leaves
the error counter family entirely absent. -/
theorem C7_observeHttp_effects_witness :
    mapLookup (Metrics.empty.observeHttp "GET" "/ok" 200 50).counters "http_errors_total"
      = none := by
  have h := (C7_observeHttp_effects Metrics.empty).2.2.2 "GET" "/ok" 200 50 (by decide)
  exact h.trans rfl

theorem renderHistogram_sortAsc (name : String) (values : List ℚ) :
    renderHistogram name (sortAsc values) = renderHistogram name values := by
  have hperm := sortAsc_perm values
  have hlen : (sortAsc values).length = values.length := hperm.length_eq
  have hsum : (sortAsc values).foldl (fun a b => a + b) 0
      = values.foldl (fun a b => a + b) 0 := by
    rw [foldl_add, foldl_add, hperm.sum_eq]
  simp only [renderHistogram, hlen, hsum, sortAsc_idem]

/-- C8: getMetrics called twice with no intervening mutation yields
byte-identical output, although the first call sorts each nonempty
histogram buffer in place: sorting preserves length, sum and threshold
counts, and the sort of a sorted buffer is itself. -/
theorem C8_getMetrics_idempotent (m : Metrics) :
    ((m.getMetrics.2).getMetrics).1 = m.getMetrics.1 := by
  have hh : (m.getMetrics.2).histograms
      = m.histograms.map (fun nv => (nv.1, if nv.2.length > 0 then sortAsc nv.2 else nv.2)) := rfl
  have hflat : (m.getMetrics.2).histograms.flatMap (fun nv => renderHistogram nv.1 nv.2)
      = m.histograms.flatMap (fun nv => renderHistogram nv.1 nv.2) := by
    rw [hh, List.flatMap_def, List.flatMap_def, List.map_map]
    congr 1
    apply List.map_congr_left
    intro nv _
    simp only [Function.comp_apply]
    by_cases h : nv.2.length > 0
    · rw [if_pos h]
      exact renderHistogram_sortAsc nv.1 nv.2
    · rw [if_neg h]
  have hcnt : (m.getMetrics.2).counters = m.counters := rfl
  show String.intercalate "\n" (renderLines (m.getMetrics.2))
      = String.intercalate "\n" (renderLines m)
  apply congrArg
  unfold renderLines
  rw [hcnt, hflat]

/-- C9: omitting the labels argument and passing an empty labels object
produce the distinct canonical keys "default" and "", so the two calls
accumulate into two distinct series, for counter, gauge and histogram
alike (for the histogram the two combined map keys are the bare name and
the name followed by an empty brace pair). -/
theorem C9_default_vs_empty_labels (name : String) :
    getLabelKey none = "default" ∧
    getLabelKey (some []) = "" ∧
    getLabelKey none ≠ getLabelKey (some []) ∧
    ((Metrics.empty.counter name 1 none).counter name 1 (some [])).counters
      = [(name, [("default", (1 : ℚ)), ("", 1)])] ∧
    ((Metrics.empty.gauge name 7 none).gauge name 7 (some [])).gauges
      = [(name, [("default", (7 : ℚ)), ("", 7)])] ∧
    ((Metrics.empty.histogram name 5 none).histogram name 5 (some [])).histograms
      = [(name, [(5 : ℚ)]), (name ++ "\x7b\x7d", [5])] := by
  have hd0 : getLabelKey none = "default" := rfl
  have hd : getLabelKey (some []) = "" := rfl
  have hsent : ¬ (("default" : String) = "") := by decide
  have hne : ¬ (name = name ++ "\x7b\x7d") := by
    intro hcontra
    have hl := congrArg String.length hcontra
    rw [String.length_append] at hl
    have h2 : ("\x7b\x7d" : String).length = 2 := rfl
    omega
  have hbrace : ("\x7b" : String) ++ getLabelKey (some []) ++ "\x7d" = "\x7b\x7d" := rfl
  refine ⟨rfl, rfl, by decide, ?_, ?_, ?_⟩
  · simp [Metrics.counter, Metrics.empty, mapSet, mapGetD, mapLookup, hd0, hd, hsent]
  · simp [Metrics.gauge, Metrics.empty, mapSet, mapGetD, mapLookup, hd0, hd, hsent]
  · simp only [Metrics.histogram, Metrics.empty, histKey, hd0, hd, hbrace]
    simp [mapSet, mapGetD, mapLookup, hne, String.append_empty, hsent]

/-- C1: the claim says a log call combines the standing context of the
logger with the per-call context, so that after withContext(\x7ba:1\x7d) on a
logger carrying \x7bb:2\x7d and traceId T a log call emits context
\x7ba:1, b:2\x7d with traceId T, while the original logger still emits \x7bb:2\x7d.
The code does not: withContext stores the merged standing context and
inherits the traceId, but formatLog places only the per-call context in
the record and never reads the stored standing context, so both loggers
emit records with no context at all when called without a per-call
context. This theorem evaluates the code at that failing input. -/
theorem C1_standing_context_dropped :
    let L : Logging.Logger :=
      { service := "shadcn-admin", traceId := some "T", context := some [("b", (2 : ℚ))] }
    let L2 := L.withContext [("a", 1)]
    L2.context = some [("b", 2), ("a", 1)] ∧
    L2.traceId = some "T" ∧
    (L2.info "t0" "m" none).context = none ∧
    (L2.info "t0" "m" none).traceId = some "T" ∧
    (L.info "t1" "m" none).context = none := by
  decide

/-- C2: the claim says getMetrics renders, for each counter series and for
each gauge series, one line per label-set. The code renders counter series
only: the gauges map is never visited by getMetrics. This theorem
evaluates the code on a registry holding one recorded gauge sample: the
gauge is stored, yet the rendered text is byte-identical to the rendering
of the empty registry, so no gauge line exists. -/
theorem C2_gauges_not_rendered :
    (Metrics.gauge Metrics.empty "g" 5 none).gauges = [("g", [("default", (5 : ℚ))])] ∧
    (Metrics.getMetrics (Metrics.gauge Metrics.empty "g" 5 none)).1
      = (Metrics.getMetrics Metrics.empty).1 := by
  decide

end Shadcn
